import Mathlib

/-!
Verification development for the `sprout` canvas engine
(`src/components/canvas/Canvas.tsx`) and the idea-generation endpoint
(`app/api/ideas/generate/route.ts`).

Numbers are modelled as exact rationals (`ℚ`); JavaScript floating point
is out of scope.  The transcendental functions `Math.cos`, `Math.sin`,
`Math.atan2` and the constant `Math.PI` are abstracted into a `TrigModel`
parameter, since the claims under verification do not depend on their
analytic values.  `Math.hypot dx dy > d` is rendered exactly by
`hypotGtQ`, which compares squared distances (equivalent for `0 ≤ d`,
and always true for `d < 0` because `hypot` is nonnegative).
-/

namespace Sprout

/-- `type` field of an item: `'branch' | 'leaf' | 'note'`. -/
inductive ItemType
  | branch
  | leaf
  | note
  deriving DecidableEq, Repr

/-- The `Item` interface of `Canvas.tsx`.  The optional boolean fields
`isLiked?` / `isManuallyCreated?` are modelled as `Bool` with `false`
standing for JavaScript `undefined` (both are only ever used in boolean
position). -/
structure Item where
  id : String
  type : ItemType
  x : ℚ
  y : ℚ
  label : String
  isLiked : Bool
  parentId : Option String
  isManuallyCreated : Bool
  deriving DecidableEq, Repr

/-- Abstraction of the JavaScript float math library: `cos`, `sin`,
`atan2` and the constant `Math.PI`.  All theorems below are proved for
an arbitrary `TrigModel`, hence in particular for the actual float
approximations used by the browser. -/
structure TrigModel where
  cos : ℚ → ℚ
  sin : ℚ → ℚ
  atan2 : ℚ → ℚ → ℚ
  pi : ℚ

/-- `clamp` from `Canvas.tsx`: `Math.max(a, Math.min(b, v))`. -/
def clampQ (v a b : ℚ) : ℚ := max a (min b v)

/-- Exact rational rendering of `Math.hypot dx dy > d`: for `0 ≤ d` this
is `d ^ 2 < dx ^ 2 + dy ^ 2`, and for `d < 0` it is always true because
`hypot` is nonnegative. -/
def hypotGtQ (dx dy d : ℚ) : Bool :=
  if d < 0 then true else decide (d ^ 2 < dx ^ 2 + dy ^ 2)

/-- The clearance test of `findOpenSpot`:
`positions.every (p => Math.hypot(x - p.x, y - p.y) > minDist)`. -/
def isClear (positions : List (ℚ × ℚ)) (minDist : ℚ) (pt : ℚ × ℚ) : Bool :=
  positions.all (fun p => hypotGtQ (pt.1 - p.1) (pt.2 - p.2) minDist)

/-- The spiral-search loop of `findOpenSpot`, with the 64-iteration
budget as fuel.  Each failed iteration advances `radius` by `24` and
`angle` by `Math.PI / 7`; on exhaustion the source returns
`{ x: targetX + radius, y: targetY }`. -/
def findOpenSpotLoop (T : TrigModel) (positions : List (ℚ × ℚ))
    (targetX targetY minDist : ℚ) : Nat → ℚ → ℚ → ℚ × ℚ
  | 0, radius, _ => (targetX + radius, targetY)
  | fuel + 1, radius, angle =>
    let x := targetX + T.cos angle * radius
    let y := targetY + T.sin angle * radius
    if isClear positions minDist (x, y) then (x, y)
    else findOpenSpotLoop T positions targetX targetY minDist fuel
      (radius + 24) (angle + T.pi / 7)

/-- The obstacle set used by `findOpenSpot`: every existing item's
position, plus the trunk origin `(0, 0)` pushed at the end. -/
def positionsOf (items : List Item) : List (ℚ × ℚ) :=
  items.map (fun i => (i.x, i.y)) ++ [((0 : ℚ), (0 : ℚ))]

/-- `findOpenSpot` of `Canvas.tsx` (default `minDist = 200`): spiral
search from the target over at most 64 candidates. -/
def findOpenSpot (T : TrigModel) (items : List Item)
    (targetX targetY : ℚ) (minDist : ℚ := 200) : ℚ × ℚ :=
  findOpenSpotLoop T (positionsOf items) targetX targetY minDist 64 0 0

/-- The `k`-th candidate the spiral loop tests when started at radius
`r0` and angle `a0`: radius `r0 + 24 k`, angle `a0 + k · (π / 7)`. -/
def candidateAt (T : TrigModel) (targetX targetY r0 a0 : ℚ) (k : Nat) : ℚ × ℚ :=
  (targetX + T.cos (a0 + (k : ℚ) * (T.pi / 7)) * (r0 + 24 * (k : ℚ)),
   targetY + T.sin (a0 + (k : ℚ) * (T.pi / 7)) * (r0 + 24 * (k : ℚ)))

/-! ## Viewport controller -/

/-- World bounds constant of `Canvas.tsx` (`WORLD_BOUNDS`). -/
def worldMax : ℚ := 5000

/-- `SCREEN_PADDING` constant (100 px). -/
def screenPadding : ℚ := 100

/-- The viewport transform held in `scaleRef` / `txRef` / `tyRef`. -/
structure Viewport where
  scale : ℚ
  tx : ℚ
  ty : ℚ
  deriving DecidableEq, Repr

/-- Lower clamp bound for `tx` at a given scale:
`cssWidth - WORLD_BOUNDS.maxX * scale - SCREEN_PADDING`. -/
def txMinB (cssW s : ℚ) : ℚ := cssW - worldMax * s - screenPadding

/-- Upper clamp bound for `tx`: `-(WORLD_BOUNDS.minX * scale) + SCREEN_PADDING`. -/
def txMaxB (s : ℚ) : ℚ := -((-worldMax) * s) + screenPadding

/-- Lower clamp bound for `ty` at a given scale. -/
def tyMinB (cssH s : ℚ) : ℚ := cssH - worldMax * s - screenPadding

/-- Upper clamp bound for `ty`. -/
def tyMaxB (s : ℚ) : ℚ := -((-worldMax) * s) + screenPadding

/-- `clampTranslation` of `Canvas.tsx` (the transient `isAtEdge` UI flag
is omitted; it does not feed back into the transform). -/
def clampTranslation (cssW cssH tx ty currentScale : ℚ) : ℚ × ℚ :=
  (clampQ tx (txMinB cssW currentScale) (txMaxB currentScale),
   clampQ ty (tyMinB cssH currentScale) (tyMaxB currentScale))

/-- `handleWheel`: zoom towards the pointer, then clamp the translate at
the new scale.  `zoomIntensity = 0.0015`, scale clamped to `[0.2, 1]`. -/
def handleWheel (cssW cssH : ℚ) (v : Viewport) (mouseX mouseY deltaY : ℚ) : Viewport :=
  let zoomIntensity : ℚ := 3 / 2000
  let delta := -deltaY
  let prevScale := v.scale
  let newScale := clampQ (prevScale * (1 + delta * zoomIntensity)) (1 / 5) 1
  let newTx := mouseX - ((mouseX - v.tx) / prevScale) * newScale
  let newTy := mouseY - ((mouseY - v.ty) / prevScale) * newScale
  let c := clampTranslation cssW cssH newTx newTy newScale
  { scale := newScale, tx := c.1, ty := c.2 }

/-- `handlePointerMove` while panning: the requested translate
`(clientX - start.x, clientY - start.y)` is clamped at the current
scale; the scale is unchanged. -/
def handlePan (cssW cssH : ℚ) (v : Viewport) (reqTx reqTy : ℚ) : Viewport :=
  let c := clampTranslation cssW cssH reqTx reqTy v.scale
  { v with tx := c.1, ty := c.2 }

/-- A user input event on the canvas: a wheel zoom or a pan move. -/
inductive ViewOp
  | wheel (mouseX mouseY deltaY : ℚ)
  | pan (reqTx reqTy : ℚ)
  deriving DecidableEq, Repr

def applyOp (cssW cssH : ℚ) (v : Viewport) : ViewOp → Viewport
  | .wheel mx my dy => handleWheel cssW cssH v mx my dy
  | .pan rx ry => handlePan cssW cssH v rx ry

def applyOps (cssW cssH : ℚ) (v : Viewport) (ops : List ViewOp) : Viewport :=
  ops.foldl (applyOp cssW cssH) v

/-- The invariant claimed by the spec: scale within `[0.2, 1]` and the
translate within the clamp bounds for the current scale. -/
def ViewInv (cssW cssH : ℚ) (v : Viewport) : Prop :=
  1 / 5 ≤ v.scale ∧ v.scale ≤ 1 ∧
  txMinB cssW v.scale ≤ v.tx ∧ v.tx ≤ txMaxB v.scale ∧
  tyMinB cssH v.scale ≤ v.ty ∧ v.ty ≤ tyMaxB v.scale

instance (cssW cssH : ℚ) (v : Viewport) : Decidable (ViewInv cssW cssH v) := by
  unfold ViewInv; infer_instance

/-! ## Canvas state and generation orchestrator -/

/-- The React state of `Canvas` relevant to the item tree and the
generation orchestrator.  The per-item extra-context map
(`itemContextMap`, a JS object) is an association list consulted through
`lookup`, and the visited set (`visitedLeafs`) a list of ids. -/
structure CanvasState where
  items : List Item
  activeId : Option String
  visitedLeafs : List String
  itemContextMap : List (String × String)
  isGenerating : Bool
  autoGenerateEnabled : Bool
  effectiveProjectContext : String
  deriving DecidableEq, Repr

/-- `itemContextMap[item.id] || ''`. -/
def lookupCtx (s : CanvasState) (id : String) : String :=
  (s.itemContextMap.lookup id).getD ""

/-- `{...prev, [id]: v}` on the context map. -/
def setCtx (m : List (String × String)) (k v : String) : List (String × String) :=
  (k, v) :: m

/-- `extraContext: itemContext || undefined` in the request body. -/
def ctxOpt (c : String) : Option String :=
  if c = "" then none else some c

/-- The `mode` field of a request to `/api/ideas/generate`. -/
inductive GenMode
  | initial
  | related
  | addtl
  deriving DecidableEq, Repr

/-- A request issued to the generation endpoint. -/
structure GenRequest where
  mode : GenMode
  parentText : Option String
  extraContext : Option String
  deriving DecidableEq, Repr

/-- The parsed JSON body of a generation response; `ideas = none`
models a missing / non-array `ideas` field. -/
structure GenJson where
  ideas : Option (List String)
  deriving DecidableEq, Repr

/-- An operation issued to the persistence port or the generation port,
in issue order. -/
inductive PortEvent
  | deleteIdea (id : String)
  | genRequest (mode : GenMode)
  | createIdea (id : String)
  deriving DecidableEq, Repr

/-- The child-creation loop shared by `handleItemClick`,
`handleGenerateMore` and `handleRefreshChildren`: fan out from the
parent along the outward bearing from the origin with angular offsets
`[-0.5, 0, 0.5]` and base distance `220 + 30·i`, each position resolved
through `findOpenSpot` against the items present when the loop starts
(`itemsRef.current` is only updated after the whole batch).  `freshIds`
models the ids handed out by `createIdea`. -/
def makeChildren (T : TrigModel) (items : List Item) (parent : Item)
    (ideas : List String) (freshIds : Nat → String) : List Item :=
  (List.range ideas.length).map (fun i =>
    let outAngle := T.atan2 (parent.y - 0) (parent.x - 0)
    let offsets : List ℚ := [-(1 / 2), 0, 1 / 2]
    let angle := outAngle + (offsets.get? (i % 3)).getD 0
    let baseDist : ℚ := 220 + (i : ℚ) * 30
    let targetX := parent.x + T.cos angle * baseDist
    let targetY := parent.y + T.sin angle * baseDist
    let spot := findOpenSpot T items targetX targetY 200
    { id := freshIds i, type := ItemType.leaf, x := spot.1, y := spot.2,
      label := (ideas.get? i).getD "", isLiked := false,
      parentId := some parent.id, isManuallyCreated := false })

/-- Gate of the `addtl` fetch in `handleItemClick`:
`autoGenerateEnabled && isFirstVisit && !item.isManuallyCreated && effectiveProjectContext`. -/
def condAddtl (autoGen : Bool) (ctx : String) (item : Item) (isFirstVisit : Bool) : Prop :=
  autoGen = true ∧ isFirstVisit = true ∧
  item.isManuallyCreated = false ∧ ctx ≠ ""

instance (a : Bool) (c : String) (item : Item) (b : Bool) :
    Decidable (condAddtl a c item b) := by
  unfold condAddtl; infer_instance

/-- Gate of the child-generation fetch in `handleItemClick`:
`autoGenerateEnabled && isFirstVisit && !hasChildren && effectiveProjectContext`. -/
def condRelated (autoGen : Bool) (ctx : String) (isFirstVisit hasChildren : Bool) : Prop :=
  autoGen = true ∧ isFirstVisit = true ∧
  hasChildren = false ∧ ctx ≠ ""

instance (a : Bool) (c : String) (b hc : Bool) :
    Decidable (condRelated a c b hc) := by
  unfold condRelated; infer_instance

/-- The new children produced by the child-generation fetch of
`handleItemClick`: empty when the fetch failed (`none`, caught with no
mutation), when the response has no `ideas` array, or when the array is
empty (`json?.ideas?.length` falsy). -/
def relatedNewItems (T : TrigModel) (freshIds : Nat → String)
    (items : List Item) (item : Item) : Option GenJson → List Item
  | some json =>
    match json.ideas with
    | some ideas =>
      if ideas.isEmpty then [] else makeChildren T items item ideas freshIds
    | none => []
  | none => []

/-- `handleItemClick`: set the item active, mark it visited, possibly
fetch `addtl` (result discarded by the source: the feature was removed)
and possibly fetch a `related` batch of children.  `addtlResult` /
`relatedResult` are the outcomes of the two fetches (`none` = the
request failed and was caught; both paths leave the tree untouched and
reset the generating flag through `finally`).  Returns the net new
state together with the list of generation requests issued; the
view-centering animation only touches the viewport and is modelled
separately. -/
def handleItemClick (T : TrigModel) (freshIds : Nat → String)
    (s : CanvasState) (item : Item)
    (addtlResult relatedResult : Option GenJson) :
    CanvasState × List GenRequest :=
  let isFirstVisit : Bool := !(s.visitedLeafs.contains item.id)
  let s0 := { s with
    activeId := some item.id,
    visitedLeafs := if isFirstVisit then item.id :: s.visitedLeafs else s.visitedLeafs }
  let itemContext := lookupCtx s0 item.id
  let condA := condAddtl s0.autoGenerateEnabled s0.effectiveProjectContext item isFirstVisit
  let g1 : Bool := if condA then false else s0.isGenerating
  let reqs1 : List GenRequest :=
    if condA then [⟨GenMode.addtl, some item.label, ctxOpt itemContext⟩] else []
  let hasChildren : Bool := s0.items.any (fun i => i.parentId == some item.id)
  let condR := condRelated s0.autoGenerateEnabled s0.effectiveProjectContext
    isFirstVisit hasChildren
  let newItems := relatedNewItems T freshIds s0.items item relatedResult
  ({ s0 with
      items := if condR then s0.items ++ newItems else s0.items,
      isGenerating := if condR then false else g1 },
   reqs1 ++ if condR then
     [⟨GenMode.related, some item.label, ctxOpt itemContext⟩] else [])

/-- `handleGenerateMore`: always fetch a `related` batch for the given
item (no visited-set gate), append results as children, then clear the
item's extra context; failures are caught with no state change. -/
def handleGenerateMore (T : TrigModel) (freshIds : Nat → String)
    (s : CanvasState) (item : Item) (fetchResult : Option GenJson) :
    CanvasState × List GenRequest :=
  if s.effectiveProjectContext = "" then (s, [])
  else
    let itemContext := lookupCtx s item.id
    let req : GenRequest := ⟨GenMode.related, some item.label, ctxOpt itemContext⟩
    match fetchResult with
    | none => ({ s with isGenerating := false }, [req])
    | some json =>
      let s1 :=
        match json.ideas with
        | some ideas =>
          if ideas.isEmpty then s
          else { s with items := s.items ++ makeChildren T s.items item ideas freshIds }
        | none => s
      ({ s1 with itemContextMap := setCtx s1.itemContextMap item.id "",
                 isGenerating := false }, [req])

/-- `handleRefreshChildren`: delete the *direct* children of the active
item from the persistence port and from state, then fetch a replacement
`related` batch.  Returns the new state and the ordered trace of port
operations. -/
def handleRefreshChildren (T : TrigModel) (freshIds : Nat → String)
    (s : CanvasState) (fetchResult : Option GenJson) :
    CanvasState × List PortEvent :=
  match s.activeId with
  | none => (s, [])
  | some aid =>
    if s.effectiveProjectContext = "" then (s, [])
    else
      match s.items.find? (fun i => i.id == aid) with
      | none => (s, [])
      | some activeItem =>
        let childrenToDelete := s.items.filter (fun i => i.parentId == some aid)
        let deleteEvents := childrenToDelete.map (fun c => PortEvent.deleteIdea c.id)
        let itemsAfterDelete := s.items.filter (fun i => !(i.parentId == some aid))
        match fetchResult with
        | none =>
          ({ s with items := itemsAfterDelete, isGenerating := false },
           deleteEvents ++ [PortEvent.genRequest GenMode.related])
        | some json =>
          let newOnes :=
            match json.ideas with
            | some ideas =>
              if ideas.isEmpty then []
              else makeChildren T itemsAfterDelete activeItem ideas freshIds
            | none => []
          ({ s with items := itemsAfterDelete ++ newOnes,
                    itemContextMap := setCtx s.itemContextMap aid "",
                    isGenerating := false },
           deleteEvents ++ [PortEvent.genRequest GenMode.related] ++
             newOnes.map (fun c => PortEvent.createIdea c.id))

/-- The bootstrap effect (`runInitial`): when the canvas has no items
and a project context exists, fetch an `initial` batch and lay it out in
a triangle around the viewport center; on failure the catch block leaves
the items untouched. -/
def runInitial (T : TrigModel) (freshIds : Nat → String) (cssW cssH : ℚ)
    (v : Viewport) (s : CanvasState) (fetchResult : Option GenJson) :
    CanvasState × List GenRequest :=
  if 0 < s.items.length then (s, [])
  else if s.effectiveProjectContext = "" then (s, [])
  else
    let req : GenRequest := ⟨GenMode.initial, none, none⟩
    match fetchResult with
    | none => ({ s with isGenerating := false }, [req])
    | some json =>
      match json.ideas with
      | some ideas =>
        if ideas.isEmpty then ({ s with isGenerating := false }, [req])
        else
          let cx := (cssW / 2 - v.tx) / v.scale
          let cy := (cssH / 2 - v.ty) / v.scale
          let baseRadius : ℚ := 380
          let baseAngles : List ℚ := [-(T.pi / 6), T.pi / 2, T.pi + T.pi / 6]
          let created := (List.range ideas.length).map (fun i =>
            let angle := (baseAngles.get? (i % 3)).getD 0
            let tx := cx + T.cos angle * baseRadius
            let ty := cy + T.sin angle * baseRadius
            let spot := findOpenSpot T s.items tx ty 340
            { id := freshIds i, type := ItemType.leaf, x := spot.1, y := spot.2,
              label := (ideas.get? i).getD "", isLiked := false,
              parentId := some "trunk", isManuallyCreated := false : Item })
          ({ s with items := created, isGenerating := false }, [req])
      | none => ({ s with isGenerating := false }, [req])

/-- `handleDeleteItem`'s recursive `findDescendants`, with the list
length as fuel (the TypeScript recursion terminates exactly when the
parent graph reachable from the id is acyclic, which the fuel bound
covers — see `ParentsFirst`). -/
def findDescendants (items : List Item) : Nat → String → List String
  | 0, _ => []
  | fuel + 1, itemId =>
    let children := items.filter (fun i => i.parentId == some itemId)
    children.map (fun c => c.id) ++
      children.flatMap (fun c => findDescendants items fuel c.id)

/-- `handleDeleteItem`: collect the id and all recursive descendants,
delete them from the persistence port and from state, drop their extra
contexts, and clear the active id if it was deleted.  Returns the new
state and the list of ids whose deletion was issued to the port. -/
def handleDeleteItem (s : CanvasState) (id : String) :
    CanvasState × List String :=
  let toDelete := id :: findDescendants s.items s.items.length id
  ({ s with
      items := s.items.filter (fun i => !(toDelete.contains i.id)),
      itemContextMap := s.itemContextMap.filter (fun p => !(toDelete.contains p.1)),
      activeId := if toDelete.contains (s.activeId.getD "") then none else s.activeId },
   toDelete)

/-! ## The idea-generation endpoint (`app/api/ideas/generate/route.ts`) -/

/-- A JSON value appearing in the model's parsed `ideas` array: either
a string or some non-string value. -/
inductive JVal
  | str (s : String)
  | other
  deriving DecidableEq, Repr

/-- `typeof s === 'string'`. -/
def JVal.isString : JVal → Bool
  | .str _ => true
  | .other => false

/-- The model output after `safeParseJSON`: `ideas = some l` when the
parsed `ideas` field is an array (`Array.isArray`), `none` otherwise. -/
structure ParsedGen where
  ideas : Option (List JVal)
  addtlText : Option String
  deriving DecidableEq, Repr

/-- The sanitization step of the endpoint's `POST` handler:
`Array.isArray(parsed.ideas) ? parsed.ideas.filter(s => typeof s === 'string').slice(0, 3) : undefined`. -/
def sanitizeIdeas (parsed : ParsedGen) : Option (List JVal) :=
  match parsed.ideas with
  | some l => some ((l.filter JVal.isString).take 3)
  | none => none

/-! ## Descendant paths for the cascading delete -/

/-- A chain of `parentId` links of length `k` from `root` down to an
item id. -/
inductive DescPath (items : List Item) (root : String) : String → Nat → Prop
  | single (c : Item) (hc : c ∈ items) (hp : c.parentId = some root) :
      DescPath items root c.id 1
  | cons (c : Item) {mid : String} {k : Nat} (hd : DescPath items root mid k)
      (hc : c ∈ items) (hp : c.parentId = some mid) :
      DescPath items root c.id (k + 1)

/-- A parent chain from `root` down to an id, carrying the items
traversed (most recent first): `Chain items root a cs` holds when
`cs = [cₖ, …, c₁]` with `c₁.parentId = some root`,
`cᵢ₊₁.parentId = some cᵢ.id` and `cₖ.id = a`. -/
inductive Chain (items : List Item) (root : String) : String → List Item → Prop
  | single (c : Item) (hc : c ∈ items) (hp : c.parentId = some root) :
      Chain items root c.id [c]
  | cons (c : Item) {mid : String} {cs : List Item} (hd : Chain items root mid cs)
      (hc : c ∈ items) (hp : c.parentId = some mid) :
      Chain items root c.id (c :: cs)

/-- No item is its own descendant (within the depth bound given by the
item count — a cycle, if any, always yields one of that depth).  This
is the condition under which the source's unbounded recursion in
`findDescendants` terminates; the list order is immaterial, since the
source filters the whole collection at every level. -/
def Acyclic (items : List Item) : Prop :=
  ∀ c ∈ items, c.id ∉ findDescendants items items.length c.id

instance (items : List Item) : Decidable (Acyclic items) := by
  unfold Acyclic; infer_instance

/-! ## Concrete fixtures used by witnesses and counterexamples -/

/-- A computable trig model with `cos = 1`, `sin = 0` (candidates march
due east). -/
def T0 : TrigModel := ⟨fun _ => 1, fun _ => 0, fun _ _ => 0, 22 / 7⟩

/-- A computable trig model with `cos = 0`, `sin = 1` (candidates march
due north), separating bearing claims from the code's fallback. -/
def T1 : TrigModel := ⟨fun _ => 0, fun _ => 1, fun _ _ => 0, 22 / 7⟩

/-- Deterministic ids handed out by the persistence port. -/
def fresh0 : Nat → String := fun n => "new" ++ toString n

def itemP : Item :=
  ⟨"p", ItemType.leaf, 1000, 0, "parent idea", false, some "trunk", false⟩

def itemK : Item :=
  ⟨"k", ItemType.leaf, 1000, 600, "child idea", false, some "p", false⟩

def itemA : Item :=
  ⟨"a", ItemType.leaf, 1000, 0, "A", false, some "trunk", false⟩

def itemB : Item :=
  ⟨"b", ItemType.leaf, 1000, 600, "B", false, some "a", false⟩

def itemC : Item :=
  ⟨"c", ItemType.leaf, 1000, -600, "C", false, some "a", false⟩

def itemD : Item :=
  ⟨"d", ItemType.leaf, 1600, 0, "D", false, some "a", false⟩

/-- A grandchild: its parent is `itemB`, which is itself a child of
`itemA`. -/
def itemG : Item :=
  ⟨"g", ItemType.leaf, 400, 600, "G", false, some "b", false⟩

/-- A canvas holding an item `p` that already has a child `k`. -/
def stateWithChild : CanvasState :=
  ⟨[itemP, itemK], none, [], [], false, true, "topic"⟩

/-- A canvas holding a single childless item `p`. -/
def stateNoChild : CanvasState :=
  ⟨[itemP], none, [], [], false, true, "topic"⟩

/-- Active item `a` with three children `b`, `c`, `d` and one grandchild
`g` under `b` — the refresh example of the spec. -/
def stateRefresh : CanvasState :=
  ⟨[itemA, itemB, itemC, itemD, itemG], some "a", [], [], false, true, "topic"⟩

/-- Active item `a` with a single child `b`. -/
def stateOneChild : CanvasState :=
  ⟨[itemA, itemB], some "a", [], [], false, true, "topic"⟩

/-- A three-item chain `a → b → g` with `b` focused. -/
def stateChain : CanvasState :=
  ⟨[itemA, itemB, itemG], some "b", [], [], false, true, "topic"⟩

/-- A parsed model output mixing strings and a non-string entry. -/
def parsed0 : ParsedGen :=
  ⟨some [JVal.str "a", JVal.other, JVal.str "b", JVal.str "c", JVal.str "d"], none⟩

def json3 : GenJson := ⟨some ["x1", "x2", "x3"]⟩

/-! ## Support lemmas -/

theorem candidateAt_zero (T : TrigModel) (tX tY r0 a0 : ℚ) :
    candidateAt T tX tY r0 a0 0 =
      (tX + T.cos a0 * r0, tY + T.sin a0 * r0) := by
  simp [candidateAt]

theorem candidateAt_succ (T : TrigModel) (tX tY r0 a0 : ℚ) (k : Nat) :
    candidateAt T tX tY r0 a0 (k + 1) =
      candidateAt T tX tY (r0 + 24) (a0 + T.pi / 7) k := by
  unfold candidateAt
  push_cast
  have h1 : a0 + ((k : ℚ) + 1) * (T.pi / 7) = a0 + T.pi / 7 + (k : ℚ) * (T.pi / 7) := by ring
  have h2 : r0 + 24 * ((k : ℚ) + 1) = r0 + 24 + 24 * (k : ℚ) := by ring
  rw [h1, h2]

/-- If some candidate within the fuel budget is clear, the loop returns
a clear point. -/
theorem findOpenSpotLoop_clear (T : TrigModel) (positions : List (ℚ × ℚ))
    (tX tY mD : ℚ) :
    ∀ (fuel : Nat) (r0 a0 : ℚ),
      (∃ k, k < fuel ∧ isClear positions mD (candidateAt T tX tY r0 a0 k) = true) →
      isClear positions mD (findOpenSpotLoop T positions tX tY mD fuel r0 a0) = true := by
  intro fuel
  induction fuel with
  | zero =>
    intro r0 a0 h
    rcases h with ⟨k, hk, _⟩
    exact absurd hk (Nat.not_lt_zero k)
  | succ n ih =>
    intro r0 a0 h
    rcases h with ⟨k, hk, hclear⟩
    by_cases hg : isClear positions mD (tX + T.cos a0 * r0, tY + T.sin a0 * r0) = true
    · simp only [findOpenSpotLoop]
      rw [if_pos hg]
      exact hg
    · have hres : findOpenSpotLoop T positions tX tY mD (n + 1) r0 a0 =
          findOpenSpotLoop T positions tX tY mD n (r0 + 24) (a0 + T.pi / 7) := by
        simp only [findOpenSpotLoop]
        rw [if_neg hg]
      rw [hres]
      apply ih
      match k with
      | 0 =>
        rw [candidateAt_zero] at hclear
        exact absurd hclear hg
      | m + 1 =>
        refine ⟨m, Nat.lt_of_succ_lt_succ hk, ?_⟩
        rw [← candidateAt_succ]
        exact hclear

/-- If every candidate within the fuel budget is blocked, the loop
returns the exhaustion fallback `(targetX + finalRadius, targetY)`. -/
theorem findOpenSpotLoop_exhaust (T : TrigModel) (positions : List (ℚ × ℚ))
    (tX tY mD : ℚ) :
    ∀ (fuel : Nat) (r0 a0 : ℚ),
      (∀ k, k < fuel → isClear positions mD (candidateAt T tX tY r0 a0 k) = false) →
      findOpenSpotLoop T positions tX tY mD fuel r0 a0 =
        (tX + (r0 + 24 * (fuel : ℚ)), tY) := by
  intro fuel
  induction fuel with
  | zero =>
    intro r0 a0 _
    simp [findOpenSpotLoop]
  | succ n ih =>
    intro r0 a0 h
    have h0 : isClear positions mD (tX + T.cos a0 * r0, tY + T.sin a0 * r0) = false := by
      have := h 0 (Nat.succ_pos n)
      rwa [candidateAt_zero] at this
    have hres : findOpenSpotLoop T positions tX tY mD (n + 1) r0 a0 =
        findOpenSpotLoop T positions tX tY mD n (r0 + 24) (a0 + T.pi / 7) := by
      simp only [findOpenSpotLoop]
      rw [if_neg (by simp [h0])]
    rw [hres, ih (r0 + 24) (a0 + T.pi / 7) ?_]
    · push_cast
      have h2 : r0 + 24 + 24 * (n : ℚ) = r0 + 24 * ((n : ℚ) + 1) := by ring
      rw [h2]
    · intro k hkn
      have := h (k + 1) (Nat.succ_lt_succ hkn)
      rwa [candidateAt_succ] at this

theorem le_clampQ (v a b : ℚ) : a ≤ clampQ v a b := le_max_left a _

theorem clampQ_le (v a b : ℚ) (hab : a ≤ b) : clampQ v a b ≤ b :=
  max_le hab (le_trans (min_le_left b v) le_rfl)

theorem txMinB_le_txMaxB (cssW s : ℚ) (hW : cssW ≤ 2200) (hs : 1 / 5 ≤ s) :
    txMinB cssW s ≤ txMaxB s := by
  unfold txMinB txMaxB worldMax screenPadding
  nlinarith

theorem tyMinB_le_tyMaxB (cssH s : ℚ) (hH : cssH ≤ 2200) (hs : 1 / 5 ≤ s) :
    tyMinB cssH s ≤ tyMaxB s := by
  unfold tyMinB tyMaxB worldMax screenPadding
  nlinarith

/-- A single wheel or pan event preserves `ViewInv`, provided the CSS
viewport is at most 2200 px in each dimension (so the clamp range is
nonempty at every reachable scale). -/
theorem applyOp_preserves_inv (cssW cssH : ℚ) (hW : cssW ≤ 2200) (hH : cssH ≤ 2200)
    (v : Viewport) (op : ViewOp) (hv : ViewInv cssW cssH v) :
    ViewInv cssW cssH (applyOp cssW cssH v op) := by
  obtain ⟨hs1, hs2, _, _, _, _⟩ := hv
  cases op with
  | wheel mx my dy =>
    simp only [applyOp, handleWheel, clampTranslation]
    have hns1 : 1 / 5 ≤ clampQ (v.scale * (1 + -dy * (3 / 2000))) (1 / 5) 1 :=
      le_clampQ _ _ _
    have hns2 : clampQ (v.scale * (1 + -dy * (3 / 2000))) (1 / 5) 1 ≤ 1 :=
      clampQ_le _ _ _ (by norm_num)
    refine ⟨hns1, hns2, le_clampQ _ _ _,
      clampQ_le _ _ _ (txMinB_le_txMaxB cssW _ hW hns1), le_clampQ _ _ _,
      clampQ_le _ _ _ (tyMinB_le_tyMaxB cssH _ hH hns1)⟩
  | pan rx ry =>
    simp only [applyOp, handlePan, clampTranslation]
    exact ⟨hs1, hs2, le_clampQ _ _ _,
      clampQ_le _ _ _ (txMinB_le_txMaxB cssW _ hW hs1), le_clampQ _ _ _,
      clampQ_le _ _ _ (tyMinB_le_tyMaxB cssH _ hH hs1)⟩

theorem makeChildren_length (T : TrigModel) (items : List Item) (parent : Item)
    (ideas : List String) (freshIds : Nat → String) :
    (makeChildren T items parent ideas freshIds).length = ideas.length := by
  simp [makeChildren]

theorem makeChildren_parentId (T : TrigModel) (items : List Item) (parent : Item)
    (ideas : List String) (freshIds : Nat → String) :
    ∀ c ∈ makeChildren T items parent ideas freshIds, c.parentId = some parent.id := by
  intro c hc
  simp only [makeChildren, List.mem_map] at hc
  obtain ⟨i, _, rfl⟩ := hc
  rfl

theorem findDescendants_succ (items : List Item) (f : Nat) (root : String) :
    findDescendants items (f + 1) root =
      (items.filter (fun i => i.parentId == some root)).map (fun c => c.id) ++
        (items.filter (fun i => i.parentId == some root)).flatMap
          (fun c => findDescendants items f c.id) := rfl

theorem findDescendants_mono (items : List Item) :
    ∀ (f : Nat) (root a : String), a ∈ findDescendants items f root →
      a ∈ findDescendants items (f + 1) root := by
  intro f
  induction f with
  | zero => intro root a h; simp [findDescendants] at h
  | succ n ih =>
    intro root a h
    rw [findDescendants_succ] at h ⊢
    simp only [List.mem_append, List.mem_flatMap] at h ⊢
    rcases h with h | ⟨c, hc, hrec⟩
    · exact Or.inl h
    · exact Or.inr ⟨c, hc, ih c.id a hrec⟩

theorem findDescendants_le (items : List Item) {f g : Nat} (hfg : f ≤ g)
    {root a : String} (h : a ∈ findDescendants items f root) :
    a ∈ findDescendants items g root := by
  induction g with
  | zero => exact (Nat.le_zero.mp hfg) ▸ h
  | succ n ih =>
    rcases Nat.lt_or_ge f (n + 1) with hlt | hge
    · exact findDescendants_mono items n root a (ih (Nat.lt_succ_iff.mp hlt))
    · exact (Nat.le_antisymm hfg hge) ▸ h

theorem findDescendants_child (items : List Item) (f : Nat) {pid : String}
    {c : Item} (hc : c ∈ items) (hp : c.parentId = some pid) :
    c.id ∈ findDescendants items (f + 1) pid := by
  rw [findDescendants_succ]
  refine List.mem_append.mpr (Or.inl ?_)
  exact List.mem_map.mpr ⟨c, List.mem_filter.mpr ⟨hc, by simp [hp]⟩, rfl⟩

theorem findDescendants_step (items : List Item) :
    ∀ (f : Nat) (root p : String), p ∈ findDescendants items f root →
      ∀ c : Item, c ∈ items → c.parentId = some p →
        c.id ∈ findDescendants items (f + 1) root := by
  intro f
  induction f with
  | zero => intro root p h; simp [findDescendants] at h
  | succ n ih =>
    intro root p h c hc hp
    rw [findDescendants_succ] at h
    simp only [List.mem_append, List.mem_map, List.mem_flatMap] at h
    rcases h with ⟨q, hq, hqid⟩ | ⟨q, hq, hrec⟩
    · subst hqid
      rw [findDescendants_succ]
      refine List.mem_append.mpr (Or.inr ?_)
      exact List.mem_flatMap.mpr ⟨q, hq, findDescendants_child items n hc hp⟩
    · rw [findDescendants_succ]
      refine List.mem_append.mpr (Or.inr ?_)
      exact List.mem_flatMap.mpr ⟨q, hq, ih q.id p hrec c hc hp⟩

theorem DescPath.prepend {items : List Item} {root a : String} {k : Nat}
    {q : Item} (hpath : DescPath items q.id a k) (hq : q ∈ items)
    (hqp : q.parentId = some root) : DescPath items root a (k + 1) := by
  induction hpath with
  | single c hc hp => exact DescPath.cons c (DescPath.single q hq hqp) hc hp
  | cons c hd hc hp ih => exact DescPath.cons c ih hc hp

theorem mem_findDescendants_path (items : List Item) :
    ∀ (f : Nat) (root a : String), a ∈ findDescendants items f root →
      ∃ k, DescPath items root a k ∧ k ≤ f := by
  intro f
  induction f with
  | zero => intro root a h; simp [findDescendants] at h
  | succ n ih =>
    intro root a h
    rw [findDescendants_succ] at h
    simp only [List.mem_append, List.mem_map, List.mem_flatMap] at h
    rcases h with ⟨c, hc, hcid⟩ | ⟨q, hq, hrec⟩
    · subst hcid
      have hcf := List.mem_filter.mp hc
      refine ⟨1, DescPath.single c hcf.1 ?_, Nat.one_le_iff_ne_zero.mpr (by simp)⟩
      simpa using hcf.2
    · obtain ⟨k, hpath, hk⟩ := ih q.id a hrec
      have hqf := List.mem_filter.mp hq
      refine ⟨k + 1, hpath.prepend hqf.1 ?_, Nat.succ_le_succ hk⟩
      simpa using hqf.2

theorem path_mem_findDescendants {items : List Item} {root a : String} {k : Nat}
    (hpath : DescPath items root a k) : a ∈ findDescendants items k root := by
  induction hpath with
  | single c hc hp => exact findDescendants_child items 0 hc hp
  | cons c hd hc hp ih => exact findDescendants_step items _ root _ ih c hc hp

theorem chain_subset {items : List Item} {root a : String} {cs : List Item}
    (h : Chain items root a cs) : ∀ c ∈ cs, c ∈ items := by
  induction h with
  | single c hc hp =>
    intro d hd
    rw [List.mem_singleton] at hd
    exact hd ▸ hc
  | cons c hd hc hp ih =>
    intro d hdm
    rcases List.mem_cons.mp hdm with rfl | hdm
    · exact hc
    · exact ih d hdm

theorem path_to_chain {items : List Item} {root a : String} {k : Nat}
    (h : DescPath items root a k) :
    ∃ cs, Chain items root a cs ∧ cs.length = k := by
  induction h with
  | single c hc hp => exact ⟨[c], Chain.single c hc hp, rfl⟩
  | cons c hd hc hp ih =>
    obtain ⟨cs, hch, hlen⟩ := ih
    exact ⟨c :: cs, Chain.cons c hch hc hp, by simp [hlen]⟩

theorem chain_to_path {items : List Item} {root a : String} {cs : List Item}
    (h : Chain items root a cs) : DescPath items root a cs.length := by
  induction h with
  | single c hc hp => exact DescPath.single c hc hp
  | cons c hd hc hp ih => exact DescPath.cons c ih hc hp

/-- A chain can be cut at any item it traverses: there is a chain of no
greater length ending at that item. -/
theorem chain_cut {items : List Item} {root a : String} {cs : List Item}
    (h : Chain items root a cs) :
    ∀ c ∈ cs, ∃ cs', Chain items root c.id cs' ∧ cs'.length ≤ cs.length := by
  induction h with
  | single d hd hp =>
    intro c hc
    rw [List.mem_singleton] at hc
    subst hc
    exact ⟨[c], Chain.single c hd hp, le_rfl⟩
  | cons d hd hdm hp ih =>
    intro c hc
    rcases List.mem_cons.mp hc with hceq | hcs
    · rw [hceq]
      exact ⟨_, Chain.cons d hd hdm hp, le_rfl⟩
    · obtain ⟨cs', hch, hlen⟩ := ih c hcs
      exact ⟨cs', hch, Nat.le_succ_of_le hlen⟩

/-- A chain with a duplicated item can be strictly shortened without
changing its endpoints. -/
theorem chain_shorten {items : List Item} {root a : String} {cs : List Item}
    (h : Chain items root a cs) (hnd : ¬cs.Nodup) :
    ∃ cs', Chain items root a cs' ∧ cs'.length < cs.length := by
  induction h with
  | single d hd hp => exact absurd (List.nodup_singleton d) hnd
  | cons d hd hdm hp ih =>
    rename_i mid cs
    by_cases hdc : d ∈ cs
    · obtain ⟨cs', hch, hlen⟩ := chain_cut hd d hdc
      exact ⟨cs', hch, Nat.lt_succ_of_le hlen⟩
    · have hnds : ¬cs.Nodup := fun hn => hnd (List.nodup_cons.mpr ⟨hdc, hn⟩)
      obtain ⟨cs₂, hch₂, hlen₂⟩ := ih hnds
      exact ⟨d :: cs₂, Chain.cons d hch₂ hdm hp, Nat.succ_lt_succ hlen₂⟩

/-- Every chain can be replaced by a duplicate-free chain with the same
endpoints. -/
theorem chain_nodup {items : List Item} {root a : String} :
    ∀ (n : Nat) (cs : List Item), cs.length ≤ n → Chain items root a cs →
      ∃ cs', Chain items root a cs' ∧ cs'.Nodup := by
  intro n
  induction n with
  | zero =>
    intro cs hlen h
    cases h <;> simp at hlen
  | succ m ih =>
    intro cs hlen h
    by_cases hnd : cs.Nodup
    · exact ⟨cs, h, hnd⟩
    · obtain ⟨cs', hch, hlt⟩ := chain_shorten h hnd
      exact ih cs' (by omega) hch

/-- Every descendant is reached by a path of length at most the item
count: shorten the witnessing chain to a duplicate-free one, which
cannot be longer than the collection it draws from. -/
theorem path_bounded {items : List Item} {root a : String} {k : Nat}
    (h : DescPath items root a k) :
    ∃ k', k' ≤ items.length ∧ DescPath items root a k' := by
  obtain ⟨cs, hch, _⟩ := path_to_chain h
  obtain ⟨cs', hch', hnd⟩ := chain_nodup cs.length cs le_rfl hch
  refine ⟨cs'.length, ?_, chain_to_path hch'⟩
  exact (List.subperm_of_subset hnd (fun c hc => chain_subset hch' c hc)).length_le

/-! ## Claim theorems -/

/-- Claim C10: for every successful response of the idea-generation
endpoint, the returned `ideas` array (when present) contains at most 3
elements and every element is a string — non-string entries of the
model's parsed output are filtered out and the result truncated to the
first 3. -/
theorem C10_ideas_sanitized (parsed : ParsedGen) (l : List JVal)
    (h : sanitizeIdeas parsed = some l) :
    l.length ≤ 3 ∧ ∀ v ∈ l, v.isString = true := by
  unfold sanitizeIdeas at h
  cases hp : parsed.ideas with
  | none => rw [hp] at h; exact absurd h (by simp)
  | some m =>
    rw [hp] at h
    have hl : l = (m.filter JVal.isString).take 3 := by
      injection h with h'
      exact h'.symm
    subst hl
    refine ⟨?_, ?_⟩
    · rw [List.length_take]
      exact min_le_left _ _
    · intro v hv
      have hv' : v ∈ m.filter JVal.isString := List.take_subset 3 _ hv
      exact (List.mem_filter.mp hv').2

theorem C10_witness :
    ([JVal.str "a", JVal.str "b", JVal.str "c"] : List JVal).length ≤ 3 ∧
      ∀ v ∈ ([JVal.str "a", JVal.str "b", JVal.str "c"] : List JVal),
        v.isString = true :=
  C10_ideas_sanitized parsed0 [JVal.str "a", JVal.str "b", JVal.str "c"] rfl

/-- Claim C4: when `findOpenSpot` returns within its 64-iteration
budget — i.e. some tested candidate is clear — the returned point is
strictly farther than `minDist` from every existing item's position and
from the trunk origin `(0, 0)` (stated on squared distances, which is
equivalent for a nonnegative `minDist`). -/
theorem C4_open_spot_clearance (T : TrigModel) (items : List Item)
    (tX tY mD : ℚ) (hmD : 0 ≤ mD)
    (hfound : ∃ k, k < 64 ∧
      isClear (positionsOf items) mD (candidateAt T tX tY 0 0 k) = true) :
    (∀ i ∈ items,
        mD ^ 2 < ((findOpenSpot T items tX tY mD).1 - i.x) ^ 2 +
          ((findOpenSpot T items tX tY mD).2 - i.y) ^ 2) ∧
      mD ^ 2 < ((findOpenSpot T items tX tY mD).1 - 0) ^ 2 +
        ((findOpenSpot T items tX tY mD).2 - 0) ^ 2 := by
  have hclear : isClear (positionsOf items) mD (findOpenSpot T items tX tY mD) = true :=
    findOpenSpotLoop_clear T (positionsOf items) tX tY mD 64 0 0 hfound
  unfold isClear at hclear
  rw [List.all_eq_true] at hclear
  have key : ∀ p ∈ positionsOf items,
      mD ^ 2 < ((findOpenSpot T items tX tY mD).1 - p.1) ^ 2 +
        ((findOpenSpot T items tX tY mD).2 - p.2) ^ 2 := by
    intro p hp
    have h1 := hclear p hp
    unfold hypotGtQ at h1
    rw [if_neg (not_lt.mpr hmD)] at h1
    exact of_decide_eq_true h1
  refine ⟨fun i hi => key (i.x, i.y) ?_, key (0, 0) ?_⟩
  · unfold positionsOf
    exact List.mem_append.mpr (Or.inl (List.mem_map.mpr ⟨i, hi, rfl⟩))
  · unfold positionsOf
    simp

theorem C4_witness :
    (200 : ℚ) ^ 2 < ((findOpenSpot T0 [] 1000 0 200).1 - 0) ^ 2 +
      ((findOpenSpot T0 [] 1000 0 200).2 - 0) ^ 2 :=
  (C4_open_spot_clearance T0 [] 1000 0 200 (by norm_num)
    ⟨0, by norm_num,
      by norm_num [isClear, positionsOf, candidateAt, T0, hypotGtQ]⟩).2

/-- Under `T0` every candidate of the spiral around the origin is
within 1512 of the origin obstacle, hence blocked for `minDist = 2000`. -/
theorem T0_blocked (k : Nat) (hk : k < 64) :
    isClear (positionsOf ([] : List Item)) 2000
      (candidateAt T0 0 0 0 0 k) = false := by
  unfold isClear positionsOf candidateAt T0 hypotGtQ
  simp only [List.map_nil, List.nil_append, List.all_cons, List.all_nil,
    Bool.and_true]
  rw [if_neg (by norm_num)]
  rw [decide_eq_false_iff_not]
  have hk' : (k : ℚ) ≤ 63 := by exact_mod_cast Nat.le_of_lt_succ hk
  have hk0 : (0 : ℚ) ≤ (k : ℚ) := Nat.cast_nonneg k
  nlinarith

/-- Same as `T0_blocked` for the due-north trig model `T1`. -/
theorem T1_blocked (k : Nat) (hk : k < 64) :
    isClear (positionsOf ([] : List Item)) 2000
      (candidateAt T1 0 0 0 0 k) = false := by
  unfold isClear positionsOf candidateAt T1 hypotGtQ
  simp only [List.map_nil, List.nil_append, List.all_cons, List.all_nil,
    Bool.and_true]
  rw [if_neg (by norm_num)]
  rw [decide_eq_false_iff_not]
  have hk' : (k : ℚ) ≤ 63 := by exact_mod_cast Nat.le_of_lt_succ hk
  have hk0 : (0 : ℚ) ≤ (k : ℚ) := Nat.cast_nonneg k
  nlinarith

/-- Claim C8 (amended): when `findOpenSpot` exhausts its 64-iteration
budget, it returns `(targetX + 1536, targetY)` — the point one radius
step (24) beyond the farthest tried radius (63·24 = 1512), due east
of the target — rather than a point on the bearing of the last tested
candidate. -/
theorem C8_fallback_due_east (T : TrigModel) (items : List Item) (tX tY mD : ℚ)
    (hblocked : ∀ k, k < 64 →
      isClear (positionsOf items) mD (candidateAt T tX tY 0 0 k) = false) :
    findOpenSpot T items tX tY mD = (tX + 1536, tY) := by
  have h := findOpenSpotLoop_exhaust T (positionsOf items) tX tY mD 64 0 0 hblocked
  unfold findOpenSpot
  rw [h]
  norm_num

theorem C8_witness :
    findOpenSpot T0 [] 0 0 2000 = ((0 : ℚ) + 1536, (0 : ℚ)) :=
  C8_fallback_due_east T0 [] 0 0 2000 (fun k hk => T0_blocked k hk)

/-- Claim C8 counterexample: with every candidate blocked, the code's
fallback is `(targetX + 1536, targetY)` and not the point at the final
radius along the final search angle, as the claim states: under a trig
model with `cos = 0`, `sin = 1` the last tested bearing points due
north, yet the returned point lies due east. -/
theorem C8_counterexample :
    (∀ k, k < 64 → isClear (positionsOf ([] : List Item)) 2000
        (candidateAt T1 0 0 0 0 k) = false) ∧
      findOpenSpot T1 [] 0 0 2000 ≠
        (0 + T1.cos (0 + 63 * (T1.pi / 7)) * 1536,
         0 + T1.sin (0 + 63 * (T1.pi / 7)) * 1536) := by
  refine ⟨fun k hk => T1_blocked k hk, ?_⟩
  have h := findOpenSpotLoop_exhaust T1 (positionsOf ([] : List Item)) 0 0 2000
    64 0 0 (fun k hk => T1_blocked k hk)
  unfold findOpenSpot
  rw [h]
  simp only [T1, Prod.ext_iff, not_and]
  intro h1
  norm_num at h1

/-- Claim C5 (amended): provided the CSS viewport is at most 2200 px in
each dimension (so the clamp range is nonempty at every reachable
scale), every sequence of pan and wheel-zoom operations keeps the scale
in `[0.2, 1]` and the translate within the clamp bounds computed from
the current scale, the world rectangle and the 100 px padding. -/
theorem C5_clamp_invariant (cssW cssH : ℚ) (hW : cssW ≤ 2200) (hH : cssH ≤ 2200)
    (v : Viewport) (hv : ViewInv cssW cssH v) (ops : List ViewOp) :
    ViewInv cssW cssH (applyOps cssW cssH v ops) := by
  induction ops generalizing v with
  | nil => exact hv
  | cons op rest ih =>
    exact ih (applyOp cssW cssH v op) (applyOp_preserves_inv cssW cssH hW hH v op hv)

theorem C5_witness :
    ViewInv 800 600 (applyOps 800 600 ⟨1, 0, 0⟩
      [ViewOp.wheel 0 0 1000, ViewOp.pan 99999 99999]) :=
  C5_clamp_invariant 800 600 (by norm_num) (by norm_num) ⟨1, 0, 0⟩
    (by norm_num [ViewInv, txMinB, txMaxB, tyMinB, tyMaxB, worldMax, screenPadding])
    [ViewOp.wheel 0 0 1000, ViewOp.pan 99999 99999]

/-- Claim C5 counterexample: on a 3000 px-wide viewport, a single wheel
zoom-out to the minimum scale produces `txMin > txMax`; the clamp
returns `txMin`, so the claimed bound `tx ≤ txMax` fails even though
the starting state satisfied the invariant. -/
theorem C5_counterexample :
    ViewInv 3000 600 ⟨1, 0, 0⟩ ∧
      ¬((applyOps 3000 600 ⟨1, 0, 0⟩ [ViewOp.wheel 0 0 1000]).tx ≤
        txMaxB (applyOps 3000 600 ⟨1, 0, 0⟩ [ViewOp.wheel 0 0 1000]).scale) := by
  constructor
  · norm_num [ViewInv, txMinB, txMaxB, tyMinB, tyMaxB, worldMax, screenPadding]
  · norm_num [applyOps, applyOp, handleWheel, clampTranslation, clampQ,
      txMinB, txMaxB, tyMinB, tyMaxB, worldMax, screenPadding,
      List.foldl_cons, List.foldl_nil, max_def, min_def]

/-- Claim C6 (amended): for every wheel-zoom event whose zoom-to-cursor
translate is not altered by the clamp (and with nonzero current scale),
the world coordinate under the cursor is exactly the same before and
after the zoom.  When the clamp binds, the world point may shift (see
the counterexample). -/
theorem C6_zoom_preserves_cursor_world (cssW cssH : ℚ) (v : Viewport)
    (mx my dy : ℚ) (hscale : v.scale ≠ 0)
    (hx : (handleWheel cssW cssH v mx my dy).tx =
      mx - (mx - v.tx) / v.scale * (handleWheel cssW cssH v mx my dy).scale)
    (hy : (handleWheel cssW cssH v mx my dy).ty =
      my - (my - v.ty) / v.scale * (handleWheel cssW cssH v mx my dy).scale) :
    (mx - (handleWheel cssW cssH v mx my dy).tx) /
        (handleWheel cssW cssH v mx my dy).scale = (mx - v.tx) / v.scale ∧
      (my - (handleWheel cssW cssH v mx my dy).ty) /
        (handleWheel cssW cssH v mx my dy).scale = (my - v.ty) / v.scale := by
  have hns : (handleWheel cssW cssH v mx my dy).scale =
      clampQ (v.scale * (1 + -dy * (3 / 2000))) (1 / 5) 1 := rfl
  have hpos : (0 : ℚ) < (handleWheel cssW cssH v mx my dy).scale := by
    rw [hns]
    have := le_clampQ (v.scale * (1 + -dy * (3 / 2000))) (1 / 5) 1
    linarith
  have hne := hpos.ne'
  constructor
  · rw [hx]
    field_simp
    ring
  · rw [hy]
    field_simp
    ring

theorem C6_witness :
    (100 - (handleWheel 800 600 ⟨1, 400, 300⟩ 100 100 1000).tx) /
        (handleWheel 800 600 ⟨1, 400, 300⟩ 100 100 1000).scale =
      (100 - (400 : ℚ)) / 1 ∧
      (100 - (handleWheel 800 600 ⟨1, 400, 300⟩ 100 100 1000).ty) /
        (handleWheel 800 600 ⟨1, 400, 300⟩ 100 100 1000).scale =
      (100 - (300 : ℚ)) / 1 :=
  C6_zoom_preserves_cursor_world 800 600 ⟨1, 400, 300⟩ 100 100 1000
    (by norm_num)
    (by norm_num [handleWheel, clampTranslation, clampQ, txMinB, txMaxB,
      tyMinB, tyMaxB, worldMax, screenPadding, max_def, min_def])
    (by norm_num [handleWheel, clampTranslation, clampQ, txMinB, txMaxB,
      tyMinB, tyMaxB, worldMax, screenPadding, max_def, min_def])

/-- Claim C6 counterexample: zooming out from a legal state at the
right world edge clamps the translate, and the world coordinate under
the cursor changes (from -4300 to -1500) — the claimed invariance fails
when the clamp binds. -/
theorem C6_counterexample :
    ViewInv 800 600 ⟨1, 5100, 0⟩ ∧
      (800 - (handleWheel 800 600 ⟨1, 5100, 0⟩ 800 0 1000).tx) /
        (handleWheel 800 600 ⟨1, 5100, 0⟩ 800 0 1000).scale ≠
      (800 - 5100) / 1 := by
  constructor
  · norm_num [ViewInv, txMinB, txMaxB, tyMinB, tyMaxB, worldMax, screenPadding]
  · norm_num [handleWheel, clampTranslation, clampQ, txMinB, txMaxB,
      tyMinB, tyMaxB, worldMax, screenPadding, max_def, min_def]

/-- Claim C9: clicking an item that already has at least one child in
the in-memory collection issues no automatic child-generation
(`related`) request, regardless of the visited set: existing children
suppress first-visit elaboration in addition to the visited-set check. -/
theorem C9_existing_children_suppress (T : TrigModel) (freshIds : Nat → String)
    (s : CanvasState) (item : Item) (aR rR : Option GenJson)
    (hchild : s.items.any (fun i => i.parentId == some item.id) = true) :
    (handleItemClick T freshIds s item aR rR).2.filter
      (fun r => r.mode == GenMode.related) = [] := by
  have hnotR : ¬ condRelated s.autoGenerateEnabled s.effectiveProjectContext
      (!(s.visitedLeafs.contains item.id))
      (s.items.any (fun i => i.parentId == some item.id)) := by
    intro h
    rw [h.2.2.1] at hchild
    exact Bool.false_ne_true hchild
  simp only [handleItemClick]
  rw [if_neg hnotR]
  rw [List.append_nil]
  split
  · rfl
  · rfl

theorem C9_witness :
    (handleItemClick T0 fresh0 stateOneChild itemA none none).2.filter
      (fun r => r.mode == GenMode.related) = [] :=
  C9_existing_children_suppress T0 fresh0 stateOneChild itemA none none (by decide)

/-- A click on an already-visited item issues no generation request at
all: both fetch gates require `isFirstVisit`. -/
theorem handleItemClick_visited (T : TrigModel) (freshIds : Nat → String)
    (s : CanvasState) (item : Item) (aR rR : Option GenJson)
    (hvis : s.visitedLeafs.contains item.id = true) :
    (handleItemClick T freshIds s item aR rR).2 = [] := by
  have hfv : (!(s.visitedLeafs.contains item.id)) = false := by rw [hvis]; rfl
  have hnA : ¬ condAddtl s.autoGenerateEnabled s.effectiveProjectContext item false :=
    fun h => Bool.false_ne_true h.2.1
  have hnR : ∀ hc, ¬ condRelated s.autoGenerateEnabled s.effectiveProjectContext false hc :=
    fun _ h => Bool.false_ne_true h.2.1
  simp only [handleItemClick, hfv]
  rw [if_neg (hnR _), if_neg hnA]
  rfl

/-- Clicking an item always leaves it in the visited set. -/
theorem handleItemClick_visited_after (T : TrigModel) (freshIds : Nat → String)
    (s : CanvasState) (item : Item) (aR rR : Option GenJson) :
    (handleItemClick T freshIds s item aR rR).1.visitedLeafs.contains item.id = true := by
  by_cases hv : item.id ∈ s.visitedLeafs
  · simp [handleItemClick, hv]
  · simp [handleItemClick, hv]

/-- Claim C1 (amended): when auto-generation is enabled, a topic
context is present, the item is not manually created, it has not been
visited, *and it has no existing children*, the first click issues
exactly one `related` child-generation request; a subsequent click on
the same item issues no generation request at all.  (The original claim
omitted the no-existing-children condition; see the counterexample.) -/
theorem C1_first_click_generates_once (T : TrigModel) (freshIds : Nat → String)
    (s : CanvasState) (item : Item) (aR rR aR2 rR2 : Option GenJson)
    (hauto : s.autoGenerateEnabled = true)
    (hctx : s.effectiveProjectContext ≠ "")
    (hman : item.isManuallyCreated = false)
    (hvis : s.visitedLeafs.contains item.id = false)
    (hchild : s.items.any (fun i => i.parentId == some item.id) = false) :
    ((handleItemClick T freshIds s item aR rR).2.filter
        (fun r => r.mode == GenMode.related)).length = 1 ∧
      (handleItemClick T freshIds
        (handleItemClick T freshIds s item aR rR).1 item aR2 rR2).2 = [] := by
  constructor
  · have hfv : (!(s.visitedLeafs.contains item.id)) = true := by rw [hvis]; rfl
    have hR : condRelated s.autoGenerateEnabled s.effectiveProjectContext
        (!(s.visitedLeafs.contains item.id))
        (s.items.any (fun i => i.parentId == some item.id)) :=
      ⟨hauto, hfv, hchild, hctx⟩
    simp only [handleItemClick]
    rw [if_pos hR]
    split
    · rfl
    · rfl
  · exact handleItemClick_visited T freshIds _ item aR2 rR2
      (handleItemClick_visited_after T freshIds s item aR rR)

theorem C1_witness :
    ((handleItemClick T0 fresh0 stateNoChild itemP none none).2.filter
        (fun r => r.mode == GenMode.related)).length = 1 ∧
      (handleItemClick T0 fresh0
        (handleItemClick T0 fresh0 stateNoChild itemP none none).1
        itemP none none).2 = [] :=
  C1_first_click_generates_once T0 fresh0 stateNoChild itemP none none none none
    (by decide) (by decide) (by decide) (by decide) (by decide)

/-- Claim C1 counterexample: for an item that already has a child, a
first click under all of the claim's hypotheses (auto-generation on,
topic context present, not manually created, never visited) issues zero
`related` requests, not exactly one. -/
theorem C1_counterexample :
    stateWithChild.autoGenerateEnabled = true ∧
      stateWithChild.effectiveProjectContext ≠ "" ∧
      itemP.isManuallyCreated = false ∧
      stateWithChild.visitedLeafs.contains itemP.id = false ∧
      ((handleItemClick T0 fresh0 stateWithChild itemP none none).2.filter
        (fun r => r.mode == GenMode.related)).length ≠ 1 := by
  decide

theorem filter_neg_filter {α : Type} (l : List α) (p : α → Bool) :
    (l.filter (fun a => !(p a))).filter p = [] := by
  induction l with
  | nil => rfl
  | cons a t ih =>
    by_cases h : p a = true
    · simp [List.filter_cons, h, ih]
    · have h' : p a = false := Bool.eq_false_iff.mpr h
      simp [List.filter_cons, h', ih]

/-- In a trace of the shape `deletes ++ generate :: creates`, every
delete index precedes every generate-request index. -/
theorem deletes_precede_gen (A C : List PortEvent) (g : PortEvent)
    (hA : ∀ e ∈ A, ∃ d, e = PortEvent.deleteIdea d)
    (hg : ∃ md0, g = PortEvent.genRequest md0)
    (hdC : ∀ d', PortEvent.deleteIdea d' ∉ C)
    (n m : Nat) (d : String) (md : GenMode)
    (hn : (A ++ g :: C).get? n = some (PortEvent.deleteIdea d))
    (hm : (A ++ g :: C).get? m = some (PortEvent.genRequest md)) : n < m := by
  by_cases hnA : n < A.length
  · by_cases hmA : m < A.length
    · exfalso
      rw [List.get?_append hmA] at hm
      obtain ⟨d', hd'⟩ := hA _ (List.get?_mem hm)
      exact PortEvent.noConfusion hd'
    · omega
  · exfalso
    push_neg at hnA
    rw [List.get?_append_right hnA] at hn
    rcases hcase : n - A.length with _ | k
    · rw [hcase] at hn
      obtain ⟨md0, rfl⟩ := hg
      simp at hn
    · rw [hcase] at hn
      simp only [List.get?_cons_succ] at hn
      exact hdC d (List.get?_mem hn)

/-- The success path of `handleRefreshChildren`: the new item list is
the old one minus the direct children of the active item, plus the
freshly generated batch. -/
theorem handleRefreshChildren_success_items (T : TrigModel)
    (freshIds : Nat → String) (s : CanvasState) (aid : String)
    (activeItem : Item) (json : GenJson) (ideas : List String)
    (hact : s.activeId = some aid)
    (hctx : s.effectiveProjectContext ≠ "")
    (hfind : s.items.find? (fun i => i.id == aid) = some activeItem)
    (hideas : json.ideas = some ideas) (hne : ideas ≠ []) :
    (handleRefreshChildren T freshIds s (some json)).1.items =
      s.items.filter (fun i => !(i.parentId == some aid)) ++
        makeChildren T (s.items.filter (fun i => !(i.parentId == some aid)))
          activeItem ideas freshIds := by
  have hempty : ideas.isEmpty = false := by
    cases ideas with
    | nil => exact absurd rfl hne
    | cons a t => rfl
  simp only [handleRefreshChildren, hact]
  rw [if_neg hctx, hfind]
  simp only [hideas, hempty]
  rfl

/-- The trace of the success path of `handleRefreshChildren`. -/
theorem handleRefreshChildren_success_trace (T : TrigModel)
    (freshIds : Nat → String) (s : CanvasState) (aid : String)
    (activeItem : Item) (json : GenJson) (ideas : List String)
    (hact : s.activeId = some aid)
    (hctx : s.effectiveProjectContext ≠ "")
    (hfind : s.items.find? (fun i => i.id == aid) = some activeItem)
    (hideas : json.ideas = some ideas) (hne : ideas ≠ []) :
    (handleRefreshChildren T freshIds s (some json)).2 =
      (s.items.filter (fun i => i.parentId == some aid)).map
          (fun c => PortEvent.deleteIdea c.id) ++
        PortEvent.genRequest GenMode.related ::
          (makeChildren T (s.items.filter (fun i => !(i.parentId == some aid)))
              activeItem ideas freshIds).map (fun c => PortEvent.createIdea c.id) := by
  have hempty : ideas.isEmpty = false := by
    cases ideas with
    | nil => exact absurd rfl hne
    | cons a t => rfl
  simp only [handleRefreshChildren, hact]
  rw [if_neg hctx, hfind]
  simp only [hideas, hempty]
  simp

/-- The id found by `find?` is the id searched for. -/
theorem find?_id_eq {items : List Item} {aid : String} {activeItem : Item}
    (hfind : items.find? (fun i => i.id == aid) = some activeItem) :
    activeItem.id = aid := by
  have := List.find?_some hfind
  exact eq_of_beq this

/-- Claim C2 (amended): the refresh action deletes exactly the
*direct* children of the active item — it does not cascade to their
own descendants, which survive as orphans (see the counterexample) —
and all the deletes are issued before the replacement `related`
request; afterwards the direct-child count of the active item equals
the new batch size. -/
theorem C2_refresh_replaces_direct_children (T : TrigModel)
    (freshIds : Nat → String) (s : CanvasState) (aid : String)
    (activeItem : Item) (json : GenJson) (ideas : List String)
    (hact : s.activeId = some aid)
    (hctx : s.effectiveProjectContext ≠ "")
    (hfind : s.items.find? (fun i => i.id == aid) = some activeItem)
    (hideas : json.ideas = some ideas) (hne : ideas ≠ []) :
    (handleRefreshChildren T freshIds s (some json)).1.items =
        s.items.filter (fun i => !(i.parentId == some aid)) ++
          makeChildren T (s.items.filter (fun i => !(i.parentId == some aid)))
            activeItem ideas freshIds ∧
      (handleRefreshChildren T freshIds s (some json)).1.items.filter
          (fun i => i.parentId == some aid) =
        makeChildren T (s.items.filter (fun i => !(i.parentId == some aid)))
          activeItem ideas freshIds ∧
      ((handleRefreshChildren T freshIds s (some json)).1.items.filter
          (fun i => i.parentId == some aid)).length = ideas.length ∧
      (∀ n m d md,
        (handleRefreshChildren T freshIds s (some json)).2.get? n =
          some (PortEvent.deleteIdea d) →
        (handleRefreshChildren T freshIds s (some json)).2.get? m =
          some (PortEvent.genRequest md) → n < m) := by
  have hitems := handleRefreshChildren_success_items T freshIds s aid activeItem
    json ideas hact hctx hfind hideas hne
  have haid := find?_id_eq hfind
  have hfilter : (handleRefreshChildren T freshIds s (some json)).1.items.filter
      (fun i => i.parentId == some aid) =
      makeChildren T (s.items.filter (fun i => !(i.parentId == some aid)))
        activeItem ideas freshIds := by
    rw [hitems, List.filter_append, filter_neg_filter]
    rw [List.nil_append]
    apply List.filter_eq_self.mpr
    intro c hc
    have := makeChildren_parentId T _ activeItem ideas freshIds c hc
    rw [this, haid]
    exact beq_self_eq_true _
  refine ⟨hitems, hfilter, ?_, ?_⟩
  · rw [hfilter, makeChildren_length]
  · intro n m d md hn hm
    have htrace := handleRefreshChildren_success_trace T freshIds s aid activeItem
      json ideas hact hctx hfind hideas hne
    rw [htrace] at hn hm
    refine deletes_precede_gen _ _ _ ?_ ⟨GenMode.related, rfl⟩ ?_ n m d md hn hm
    · intro e he
      obtain ⟨c, _, rfl⟩ := List.mem_map.mp he
      exact ⟨c.id, rfl⟩
    · intro d' hd'
      obtain ⟨c, _, hc⟩ := List.mem_map.mp hd'
      exact PortEvent.noConfusion hc

theorem C2_witness :
    ((handleRefreshChildren T0 fresh0 stateRefresh (some json3)).1.items.filter
        (fun i => i.parentId == some "a")).length = 3 :=
  (C2_refresh_replaces_direct_children T0 fresh0 stateRefresh "a" itemA json3
    ["x1", "x2", "x3"] rfl (by decide) rfl rfl (by decide)).2.2.1

/-- Claim C2 counterexample: refreshing the children of `a` (children
`b`, `c`, `d`; grandchild `g` under `b`) does not delete the grandchild:
`g` is still in the collection afterwards, so the deletion does not
cascade and a pre-refresh descendant survives. -/
theorem C2_counterexample :
    itemG ∈ stateRefresh.items ∧ itemG.parentId = some itemB.id ∧
      itemB.parentId = some "a" ∧ stateRefresh.activeId = some "a" ∧
      itemG ∈ (handleRefreshChildren T0 fresh0 stateRefresh (some json3)).1.items := by
  refine ⟨?_, rfl, rfl, rfl, ?_⟩
  · exact List.mem_cons_of_mem _ (List.mem_cons_of_mem _ (List.mem_cons_of_mem _
      (List.mem_cons_of_mem _ (List.mem_cons_self _ _))))
  · rw [handleRefreshChildren_success_items T0 fresh0 stateRefresh "a" itemA json3
      ["x1", "x2", "x3"] rfl (by decide) rfl rfl (by decide)]
    refine List.mem_append.mpr (Or.inl (List.mem_filter.mpr ⟨?_, rfl⟩))
    exact List.mem_cons_of_mem _ (List.mem_cons_of_mem _ (List.mem_cons_of_mem _
      (List.mem_cons_of_mem _ (List.mem_cons_self _ _))))

/-- Claim C7 (amended): when the generation request fails, the
bootstrap, first-visit elaboration and explicit generate-more triggers
leave the item tree (and context map) wholly unmutated and return the
generating flag to false; the refresh trigger, however, deletes the
active item's direct children *before* issuing the request, so a failed
refresh leaves those deletions in place (see the counterexample) while
adding nothing. -/
theorem C7_failure_handling (T : TrigModel) (freshIds : Nat → String)
    (cssW cssH : ℚ) (v : Viewport) (s : CanvasState) (item : Item)
    (hctx : s.effectiveProjectContext ≠ "") :
    ((handleGenerateMore T freshIds s item none).1.items = s.items ∧
        (handleGenerateMore T freshIds s item none).1.itemContextMap =
          s.itemContextMap ∧
        (handleGenerateMore T freshIds s item none).1.isGenerating = false) ∧
      (∀ aR, (handleItemClick T freshIds s item aR none).1.items = s.items ∧
        (handleItemClick T freshIds s item aR none).1.itemContextMap =
          s.itemContextMap) ∧
      (∀ aR, s.autoGenerateEnabled = true →
        s.visitedLeafs.contains item.id = false →
        s.items.any (fun i => i.parentId == some item.id) = false →
        (handleItemClick T freshIds s item aR none).1.isGenerating = false) ∧
      (s.items = [] → (runInitial T freshIds cssW cssH v s none).1.items = [] ∧
        (runInitial T freshIds cssW cssH v s none).1.itemContextMap =
          s.itemContextMap ∧
        (runInitial T freshIds cssW cssH v s none).1.isGenerating = false) ∧
      (∀ aid activeItem, s.activeId = some aid →
        s.items.find? (fun i => i.id == aid) = some activeItem →
        (handleRefreshChildren T freshIds s none).1.items =
            s.items.filter (fun i => !(i.parentId == some aid)) ∧
          (handleRefreshChildren T freshIds s none).1.itemContextMap =
            s.itemContextMap ∧
          (handleRefreshChildren T freshIds s none).1.isGenerating = false) := by
  refine ⟨⟨?_, ?_, ?_⟩, ?_, ?_, ?_, ?_⟩
  · simp [handleGenerateMore, hctx]
  · simp [handleGenerateMore, hctx]
  · simp [handleGenerateMore, hctx]
  · intro aR
    constructor
    · simp [handleItemClick, relatedNewItems]
    · simp [handleItemClick]
  · intro aR hauto hvis hchild
    have hfv : (!(s.visitedLeafs.contains item.id)) = true := by rw [hvis]; rfl
    have hR : condRelated s.autoGenerateEnabled s.effectiveProjectContext
        (!(s.visitedLeafs.contains item.id))
        (s.items.any (fun i => i.parentId == some item.id)) :=
      ⟨hauto, hfv, hchild, hctx⟩
    simp only [handleItemClick]
    rw [if_pos hR]
  · intro hempty
    rw [runInitial]
    rw [if_neg (by simp [hempty]), if_neg hctx]
    exact ⟨hempty, rfl, rfl⟩
  · intro aid activeItem hact hfind
    simp only [handleRefreshChildren, hact]
    rw [if_neg hctx, hfind]
    exact ⟨rfl, rfl, rfl⟩

theorem C7_witness :
    (handleGenerateMore T0 fresh0 stateOneChild itemB none).1.items =
        stateOneChild.items ∧
      (handleItemClick T0 fresh0 stateOneChild itemB none none).1.isGenerating =
        false ∧
      (handleRefreshChildren T0 fresh0 stateOneChild none).1.items =
        stateOneChild.items.filter (fun i => !(i.parentId == some "a")) := by
  have h := C7_failure_handling T0 fresh0 800 600 ⟨1, 0, 0⟩ stateOneChild itemB
    (by decide)
  exact ⟨h.1.1, h.2.2.1 none (by decide) (by decide) (by decide),
    (h.2.2.2.2 "a" itemA rfl rfl).1⟩

/-- Claim C7 counterexample: a failed refresh is not mutation-free —
the active item's child `b` was already deleted before the request was
issued, so it is gone from the tree although the generation request
failed. -/
theorem C7_counterexample :
    itemB ∈ stateOneChild.items ∧
      (handleRefreshChildren T0 fresh0 stateOneChild none).2 ≠ [] ∧
      itemB ∉ (handleRefreshChildren T0 fresh0 stateOneChild none).1.items := by
  refine ⟨List.mem_cons_of_mem _ (List.mem_cons_self _ _), ?_, ?_⟩
  · decide
  · decide

/-- Claim C3: deleting an item removes it and all of its transitive
descendants from memory, issues port deletes covering that whole set
(so no deleted node survives in persistence), leaves no remaining item
with a `parentId` referencing any deleted id, and clears the focus if
the active item was deleted.  The `Acyclic` hypothesis confines the
statement to the inputs on which the source's unbounded recursion
terminates (it is independent of the list order); the fuel bound of the
embedding then covers every descendant, because each one is reached by
a duplicate-free parent chain of length at most the item count
(`path_bounded`). -/
theorem C3_delete_cascades (s : CanvasState) (delId : String)
    (hAc : Acyclic s.items) :
    (∀ r ∈ (handleDeleteItem s delId).1.items,
        r.id ∉ (handleDeleteItem s delId).2) ∧
      (∀ r ∈ s.items, ∀ k, DescPath s.items delId r.id k →
        r.id ∈ (handleDeleteItem s delId).2) ∧
      (∀ r ∈ (handleDeleteItem s delId).1.items, ∀ p, r.parentId = some p →
        p ∉ (handleDeleteItem s delId).2) ∧
      (∀ a, s.activeId = some a → a ∈ (handleDeleteItem s delId).2 →
        (handleDeleteItem s delId).1.activeId = none) := by
  have hmem : ∀ r ∈ (handleDeleteItem s delId).1.items,
      r ∈ s.items ∧ r.id ∉ (handleDeleteItem s delId).2 := by
    intro r hr
    have h := List.mem_filter.mp hr
    refine ⟨h.1, ?_⟩
    show r.id ∉ delId :: findDescendants s.items s.items.length delId
    simpa using h.2
  have hdesc : ∀ r ∈ s.items, ∀ k, DescPath s.items delId r.id k →
      r.id ∈ (handleDeleteItem s delId).2 := by
    intro r hr k hpath
    obtain ⟨k', hk', hpath'⟩ := path_bounded hpath
    have h1 := path_mem_findDescendants hpath'
    have h2 := findDescendants_le s.items hk' h1
    exact List.mem_cons_of_mem _ h2
  refine ⟨fun r hr => (hmem r hr).2, hdesc, ?_, ?_⟩
  · intro r hr p hp hpD
    obtain ⟨hrs, hrid⟩ := hmem r hr
    rcases List.mem_cons.mp hpD with hpd | hpfd
    · exact hrid (hdesc r hrs 1 (hpd ▸ DescPath.single r hrs hp))
    · obtain ⟨k, hpath, _⟩ := mem_findDescendants_path s.items _ _ _ hpfd
      exact hrid (hdesc r hrs (k + 1) (DescPath.cons r hpath hrs hp))
  · intro a ha haD
    have haD' : a ∈ delId :: findDescendants s.items s.items.length delId := haD
    simp only [handleDeleteItem, ha]
    rw [if_pos (by simpa using haD')]

theorem C3_witness :
    (handleDeleteItem stateChain "a").1.activeId = none :=
  (C3_delete_cascades stateChain "a" (by decide)).2.2.2 "b" rfl (by decide)

end Sprout
